import Mathlib

/-!
# Verification of the RISC-V Consensus Engine core logic

A shallow embedding, in Lean 4, of `api/core_logic.py`: the `chunk_text`
utility, the JSON-shape handling of the extraction and verification phases,
the `_merge_results` consensus merger, and the `run_pipeline` orchestrator.

Modelling conventions:
* Python strings are modelled as `List Char` (sequences of code points);
  `len` is `List.length`, `+` is `List.append`.
* Python floats are modelled as exact rationals `ℚ`.
* JSON values are modelled by the inductive `JValue`; Python dicts by
  association lists `List (String × JValue)` with first-match lookup.
* Fallible code (a Python `TypeError` escaping a function) is modelled with
  `Option`.
* The nondeterministic outcomes of the two external LLM calls are passed to
  `run_pipeline` as explicit arguments.
-/

/-- The six ASCII whitespace characters stripped by Python's `str.strip()`
(the full Unicode set is not needed for any text considered here). -/
def isPyWS (c : Char) : Bool :=
  c = ' ' || c = '\t' || c = '\n' || c = '\r' || c = '\u000B' || c = '\u000C'

/-- Python `s.strip()`: drop leading and trailing whitespace. -/
def pyStrip (s : List Char) : List Char :=
  ((s.dropWhile isPyWS).reverse.dropWhile isPyWS).reverse

/-- The paragraph separator `"\n\n"` used by `chunk_text`. -/
def nl2 : List Char := ['\n', '\n']

/-- Python `text.split("\n\n")`: split on each non-overlapping occurrence of
the separator, scanning left to right, keeping empty pieces. -/
def paraSplit : List Char → List (List Char)
  | [] => [[]]
  | '\n' :: '\n' :: cs => [] :: paraSplit cs
  | c :: cs =>
    match paraSplit cs with
    | [] => [[c]]
    | h :: t => (c :: h) :: t

/-- The `for para in paragraphs` loop of `chunk_text` (core_logic.py,
lines 334-347), with the accumulator `current_chunk` passed explicitly;
includes the trailing `if current_chunk: chunks.append(current_chunk.strip())`. -/
def chunkLoop (maxSize : Nat) : List (List Char) → List Char → List (List Char)
  | [], cur => if cur.isEmpty then [] else [pyStrip cur]
  | p :: ps, cur =>
    if cur.length + p.length + 2 ≤ maxSize then
      chunkLoop maxSize ps (cur ++ p ++ nl2)
    else if cur.isEmpty then
      chunkLoop maxSize ps (p ++ nl2)
    else
      pyStrip cur :: chunkLoop maxSize ps (p ++ nl2)

/-- `chunk_text` (core_logic.py, lines 326-349). -/
def chunk_text (text : List Char) (maxChunkSize : Nat := 8000) : List (List Char) :=
  if text.length ≤ maxChunkSize then [text]
  else chunkLoop maxChunkSize (paraSplit text) []

/-- Join a group of paragraphs with the `"\n\n"` separator re-inserted
between consecutive paragraphs (used to state what a chunk contains). -/
def joinSep : List (List Char) → List Char
  | [] => []
  | [p] => p
  | p :: ps => p ++ nl2 ++ joinSep ps

/-- A group of paragraphs as `chunk_text` accumulates it: joined with the
separator and carrying the trailing `"\n\n"` appended after every paragraph. -/
def withSep (g : List (List Char)) : List Char := joinSep g ++ nl2

/-- Invariant of every paragraph group flushed by `chunkLoop`: either the
accumulated string fits in `maxSize`, or the group is a single paragraph. -/
def goodGroup (maxSize : Nat) (g : List (List Char)) : Prop :=
  (withSep g).length ≤ maxSize ∨ ∃ p, g = [p]

theorem pyStrip_length_le (s : List Char) : (pyStrip s).length ≤ s.length := by
  unfold pyStrip
  calc ((s.dropWhile isPyWS).reverse.dropWhile isPyWS).reverse.length
      = ((s.dropWhile isPyWS).reverse.dropWhile isPyWS).length := List.length_reverse _
    _ ≤ (s.dropWhile isPyWS).reverse.length :=
        (List.dropWhile_sublist _).length_le
    _ = (s.dropWhile isPyWS).length := List.length_reverse _
    _ ≤ s.length := (List.dropWhile_sublist _).length_le

theorem pyStrip_append_nl2 (s : List Char) : pyStrip (s ++ nl2) = pyStrip s := by
  unfold pyStrip nl2
  rw [List.dropWhile_append]
  by_cases h : (s.dropWhile isPyWS).isEmpty
  · rw [if_pos h]
    rw [List.isEmpty_iff] at h
    rw [h]
    rfl
  · rw [if_neg h]
    simp [List.dropWhile_cons, isPyWS]

theorem joinSep_cons_cons (a b : List Char) (l : List (List Char)) :
    joinSep (a :: b :: l) = a ++ nl2 ++ joinSep (b :: l) := rfl

theorem joinSep_append_one (g : List (List Char)) (p : List Char) (hg : g ≠ []) :
    joinSep (g ++ [p]) = joinSep g ++ nl2 ++ p := by
  induction g with
  | nil => exact absurd rfl hg
  | cons a g ih =>
    cases g with
    | nil => simp [joinSep]
    | cons b g' =>
      have h := ih (by simp)
      calc joinSep ((a :: b :: g') ++ [p])
          = a ++ nl2 ++ joinSep ((b :: g') ++ [p]) := by
            simp only [List.cons_append, joinSep_cons_cons]
        _ = a ++ nl2 ++ (joinSep (b :: g') ++ nl2 ++ p) := by rw [h]
        _ = joinSep (a :: b :: g') ++ nl2 ++ p := by
            rw [joinSep_cons_cons]
            simp [List.append_assoc]

theorem withSep_append_one (g : List (List Char)) (p : List Char) (hg : g ≠ []) :
    withSep (g ++ [p]) = withSep g ++ p ++ nl2 := by
  unfold withSep
  rw [joinSep_append_one g p hg]

theorem withSep_length (g : List (List Char)) :
    (withSep g).length = (joinSep g).length + 2 := by
  simp [withSep, nl2]

theorem withSep_not_isEmpty (g : List (List Char)) : (withSep g).isEmpty = false := by
  simp [withSep, nl2]

/-- Main inductive invariant of the packing loop: starting from a non-empty
accumulated group `g`, the loop emits exactly a partition of `g ++ ps` into
non-empty good groups, each chunk being the stripped join of its group. -/
theorem chunkLoop_spec (maxSize : Nat) (ps : List (List Char)) :
    ∀ g : List (List Char), g ≠ [] → goodGroup maxSize g →
    ∃ gs : List (List (List Char)),
      gs.flatten = g ++ ps ∧
      (∀ h ∈ gs, h ≠ [] ∧ goodGroup maxSize h) ∧
      chunkLoop maxSize ps (withSep g) = gs.map fun h => pyStrip (joinSep h) := by
  induction ps with
  | nil =>
    intro g hg hgood
    refine ⟨[g], by simp, by simp [hg, hgood], ?_⟩
    show chunkLoop maxSize [] (withSep g) = [pyStrip (joinSep g)]
    rw [chunkLoop, withSep_not_isEmpty]
    simp [withSep, pyStrip_append_nl2]
  | cons p ps ih =>
    intro g hg hgood
    rw [chunkLoop]
    by_cases hc : (withSep g).length + p.length + 2 ≤ maxSize
    · rw [if_pos hc]
      have hstep : withSep g ++ p ++ nl2 = withSep (g ++ [p]) :=
        (withSep_append_one g p hg).symm
      rw [hstep]
      have hgood' : goodGroup maxSize (g ++ [p]) := by
        left
        rw [withSep_append_one g p hg]
        simp only [List.length_append]
        simpa [nl2] using hc
      obtain ⟨gs, h1, h2, h3⟩ := ih (g ++ [p]) (by simp) hgood'
      exact ⟨gs, by rw [h1]; simp, h2, h3⟩
    · rw [if_neg hc, withSep_not_isEmpty]
      simp only [Bool.false_eq_true, if_false]
      have hsingle : p ++ nl2 = withSep [p] := rfl
      rw [hsingle]
      obtain ⟨gs, h1, h2, h3⟩ := ih [p] (by simp) (Or.inr ⟨p, rfl⟩)
      refine ⟨g :: gs, ?_, ?_, ?_⟩
      · rw [List.flatten_cons, h1]
        rfl
      · intro h hh
        rw [List.mem_cons] at hh
        rcases hh with rfl | hh
        · exact ⟨hg, hgood⟩
        · exact h2 h hh
      · rw [List.map_cons, h3]
        rw [show withSep g = joinSep g ++ nl2 from rfl, pyStrip_append_nl2]

theorem chunkLoop_nil_start (maxSize : Nat) (p : List Char) (ps : List (List Char)) :
    chunkLoop maxSize (p :: ps) [] = chunkLoop maxSize ps (p ++ nl2) := by
  rw [chunkLoop]
  split
  · rfl
  · rfl

/-- Claim C7: for every input text, `chunk_text` partitions the
double-newline-separated paragraphs into consecutive groups in order — no
paragraph duplicated or dropped — and each returned segment is its group's
paragraphs rejoined with the separator and stripped (in the small-text case
the single segment is the text itself).  This holds unconditionally, the
oversized-paragraph case included. -/
theorem chunk_text_reproduces_paragraphs (text : List Char) (maxSize : Nat) :
    (text.length ≤ maxSize ∧ chunk_text text maxSize = [text]) ∨
    ∃ gs : List (List (List Char)),
      gs.flatten = paraSplit text ∧ (∀ g ∈ gs, g ≠ []) ∧
      chunk_text text maxSize = gs.map fun g => pyStrip (joinSep g) := by
  by_cases h : text.length ≤ maxSize
  · exact Or.inl ⟨h, by simp [chunk_text, h]⟩
  · right
    unfold chunk_text
    rw [if_neg h]
    cases hps : paraSplit text with
    | nil => exact ⟨[], by simp, by simp, by rw [chunkLoop]; rfl⟩
    | cons p ps =>
      rw [chunkLoop_nil_start, show p ++ nl2 = withSep [p] from rfl]
      obtain ⟨gs, h1, h2, h3⟩ :=
        chunkLoop_spec maxSize ps [p] (by simp) (Or.inr ⟨p, rfl⟩)
      exact ⟨gs, by rw [h1]; rfl, fun g hg => (h2 g hg).1, h3⟩

/-- Claim C6: when the text is longer than `maxSize`, every returned segment
fits in `maxSize`, except that an oversized segment is always a single
stripped paragraph whose own length exceeds `maxSize` (returned unsplit). -/
theorem chunk_text_segment_size (text : List Char) (maxSize : Nat)
    (hbig : maxSize < text.length) :
    ∀ s ∈ chunk_text text maxSize,
      s.length ≤ maxSize ∨ ∃ p ∈ paraSplit text, s = pyStrip p ∧ maxSize < p.length := by
  unfold chunk_text
  rw [if_neg (by omega)]
  cases hps : paraSplit text with
  | nil => rw [chunkLoop]; simp
  | cons p ps =>
    rw [chunkLoop_nil_start, show p ++ nl2 = withSep [p] from rfl]
    obtain ⟨gs, h1, h2, h3⟩ :=
      chunkLoop_spec maxSize ps [p] (by simp) (Or.inr ⟨p, rfl⟩)
    rw [h3]
    intro s hs
    rw [List.mem_map] at hs
    obtain ⟨g, hg, rfl⟩ := hs
    rcases (h2 g hg).2 with hle | ⟨q, rfl⟩
    · left
      have h4 := withSep_length g
      have h5 := pyStrip_length_le (joinSep g)
      omega
    · have hjq : joinSep [q] = q := rfl
      rw [hjq]
      by_cases hq : (pyStrip q).length ≤ maxSize
      · exact Or.inl hq
      · right
        refine ⟨q, ?_, rfl, ?_⟩
        · have hqmem : q ∈ gs.flatten := List.mem_flatten.mpr ⟨[q], hg, by simp⟩
          rw [h1] at hqmem
          simpa using hqmem
        · have h5 := pyStrip_length_le q
          omega

/-- Claim C5 counterexample: a short input with leading whitespace is
returned as-is, not trimmed — `chunk_text " a"` yields `[" a"]`, which
differs from the trimmed `["a"]` the claim requires. -/
theorem chunk_text_small_counterexample :
    chunk_text " a".data 8000 ≠ [pyStrip " a".data] := by decide

/-- Claim C5 (amended): for every input with `len(text) <= max_chunk_size`,
`chunk_text` returns exactly one segment, equal to the input unchanged
(no trimming happens on this path). -/
theorem chunk_text_small (text : List Char) (maxSize : Nat)
    (h : text.length ≤ maxSize) : chunk_text text maxSize = [text] := by
  simp [chunk_text, h]

/-- Witness for the amended C5 at the concrete input `" a"`. -/
theorem chunk_text_small_witness : chunk_text " a".data 8000 = [" a".data] :=
  chunk_text_small " a".data 8000 (by decide)

/-- Witness for C6 at the concrete input `"aaaaaa\n\nbb"` with limit 5 and
its first returned segment `"aaaaaa"`: an oversized single paragraph. -/
theorem chunk_text_segment_size_witness :
    "aaaaaa".data.length ≤ 5 ∨
    ∃ p ∈ paraSplit "aaaaaa\n\nbb".data,
      "aaaaaa".data = pyStrip p ∧ 5 < p.length :=
  chunk_text_segment_size "aaaaaa\n\nbb".data 5 (by decide) "aaaaaa".data (by decide)

/-! ## JSON data model for the engine -/

/-- A JSON value, as produced by `json.loads`. -/
inductive JValue where
  | null
  | bool (b : Bool)
  | num (q : ℚ)
  | str (s : String)
  | arr (elems : List JValue)
  | obj (fields : List (String × JValue))

/-- A Python dict with string keys, as an association list (keys unique in
practice; lookup takes the first match). -/
abbrev Jdict := List (String × JValue)

/-- Python `d.get(k, v)`. -/
def getD (d : Jdict) (k : String) (v : JValue) : JValue := (d.lookup k).getD v

/-- Python truthiness of a JSON value (`if x:`). -/
def truthy : JValue → Bool
  | .null => false
  | .bool b => b
  | .num q => !decide (q = 0)
  | .str s => !s.isEmpty
  | .arr xs => !xs.isEmpty
  | .obj fs => !fs.isEmpty

/-- The numeric reading of a value, as accepted by Python's `+` on a float
accumulator (bools count as 0/1); any other operand raises `TypeError`. -/
def asNum : JValue → Option ℚ
  | .num q => some q
  | .bool b => some (if b then 1 else 0)
  | _ => none

/-- Pydantic validation of a `List[dict]` field: the value must be a JSON
array whose elements are all objects. -/
def asDictList : JValue → Option (List Jdict)
  | .arr xs => xs.mapM fun x => match x with | .obj d => some d | _ => none
  | _ => none

/-- Pydantic validation of an `Optional[dict]` field. -/
def summaryField : Option JValue → Option (Option Jdict)
  | none => some none
  | some .null => some none
  | some (.obj d) => some (some d)
  | some _ => none

/-- Python `round(q, 3)` (the tie at half a thousandth, which exact decimal
arithmetic never produces here, is immaterial to every claim below). -/
def round3 (q : ℚ) : ℚ := (round (q * 1000) : ℤ) / 1000

/-- Python `f"{x}"` on an `Optional[str]`. -/
def pyOptStr : Option String → String
  | some s => s
  | none => "None"

/-- An `Optional[str]` placed into a result dict. -/
def jsonOfOptStr : Option String → JValue
  | some s => .str s
  | none => .null

/-! ## Phase results (the pydantic models of core_logic.py) -/

/-- `ExtractionResult` (core_logic.py, lines 36-40). -/
structure ExtractionResult where
  success : Bool
  parameters : List Jdict
  error : Option String := none

/-- `VerificationResult` (core_logic.py, lines 43-48). -/
structure VerificationResult where
  success : Bool
  results : List Jdict
  summary : Option Jdict := none
  error : Option String := none

/-- One entry of `ConsensusResult.data`, as built by `_merge_results`
(core_logic.py, lines 229-235): a dict with exactly these five keys. -/
structure ValidatedParam where
  name : JValue
  excerpt : JValue
  category : JValue
  confidence : ℚ
  verification_notes : JValue

/-- `ConsensusResult` (core_logic.py, lines 51-61). -/
structure ConsensusResult where
  strategy : String := "Dual-LLM Consensus"
  model_a : String := "Gemini 1.5 Flash"
  model_b : String := "Llama 3 70B"
  original_count : Nat
  validated_count : Nat
  rejected_count : Nat
  confidence_avg : ℚ
  data : List ValidatedParam
  verification_summary : Option Jdict := none

/-! ## The merger -/

/-- The validated-parameter dict appended by `_merge_results` for a judgment
`item` counted valid with confidence `c`. -/
def mkParam (item : Jdict) (c : ℚ) : ValidatedParam where
  name := getD item "name" (.str "Unknown")
  excerpt := getD item "excerpt" (.str "")
  category := getD item "category" (getD item "original_category" (.str "Unknown"))
  confidence := c
  verification_notes := getD item "verification_notes" (.str "")

/-- The `for item in verified.results` loop of `_merge_results`
(core_logic.py, lines 222-237), with the three accumulators passed
explicitly; `none` models a `TypeError` escaping when `+=` meets a
non-numeric `confidence` value. -/
def mergeLoop (items : List Jdict) (fl : List ValidatedParam) (rc : Nat) (tc : ℚ) :
    Option (List ValidatedParam × Nat × ℚ) :=
  match items with
  | [] => some (fl, rc, tc)
  | item :: rest =>
    if truthy (getD item "is_valid" (.bool true)) then
      match asNum (getD item "confidence" (.num (4/5))) with
      | some c => mergeLoop rest (fl ++ [mkParam item c]) rc (tc + c)
      | none => none
    else
      mergeLoop rest fl (rc + 1) tc

/-- `_merge_results` (core_logic.py, lines 208-248). -/
def merge_results (proposed : List Jdict) (verified : VerificationResult) :
    Option ConsensusResult :=
  match mergeLoop verified.results [] 0 0 with
  | none => none
  | some (fl, rc, tc) =>
    some { original_count := proposed.length
           validated_count := fl.length
           rejected_count := rc
           confidence_avg := round3 (if fl.isEmpty then 0 else tc / fl.length)
           data := fl
           verification_summary := verified.summary }

/-! ## Reply parsing of the two clients -/

/-- The reply-handling of `_extract_with_gemini` (core_logic.py, lines
126-147), as a function of the `json.loads` outcome (`Except.error` is a
`JSONDecodeError` carrying its message).  The exception detail appended by
`str(e)` in the generic handler is elided. -/
def extract_parse : Except String JValue → ExtractionResult
  | .error m =>
    { success := false, parameters := [], error := some ("Gemini JSON parse error: " ++ m) }
  | .ok v =>
    let params := match v with
      | .obj fs => getD fs "parameters" (.arr [.obj fs])
      | _ => v
    match asDictList params with
    | some ps => { success := true, parameters := ps }
    | none => { success := false, parameters := [], error := some "Gemini extraction error" }

/-- The reply-handling of `_verify_with_llama` (core_logic.py, lines
183-206), as a function of the `json.loads` outcome.  On a non-object value
`verified_data.get("results", [])` raises `AttributeError`, caught by the
generic `except Exception` handler — so the `isinstance(verified_data, list)`
fallback on line 188 is unreachable.  Exception details are elided. -/
def verify_parse : Except String JValue → VerificationResult
  | .error m =>
    { success := false, results := [], error := some ("Llama JSON parse error: " ++ m) }
  | .ok v =>
    match v with
    | .obj fs =>
      match asDictList (getD fs "results" (.arr [])), summaryField (fs.lookup "summary") with
      | some rs, some sm => { success := true, results := rs, summary := sm }
      | _, _ => { success := false, results := [], error := some "Llama verification error" }
    | _ => { success := false, results := [], error := some "Llama verification error" }

/-! ## The orchestrator -/

/-- One entry of the merged result's `data` list, serialized by
`consensus.model_dump()`. -/
def dumpParam (p : ValidatedParam) : JValue :=
  .obj [("name", p.name), ("excerpt", p.excerpt), ("category", p.category),
        ("confidence", .num p.confidence), ("verification_notes", p.verification_notes)]

/-- `consensus.model_dump()` on the merger's output (core_logic.py, line 319). -/
def dumpConsensus (c : ConsensusResult) : Jdict :=
  [("strategy", .str c.strategy), ("model_a", .str c.model_a), ("model_b", .str c.model_b),
   ("original_count", .num c.original_count), ("validated_count", .num c.validated_count),
   ("rejected_count", .num c.rejected_count), ("confidence_avg", .num c.confidence_avg),
   ("data", .arr (c.data.map dumpParam)),
   ("verification_summary", match c.verification_summary with | some d => .obj d | none => .null)]

/-- `run_pipeline` (core_logic.py, lines 250-319), as a function of the two
LLM-call outcomes (the verification outcome is what `_verify_with_llama`
would return were it reached). -/
def run_pipeline (extraction : ExtractionResult) (verification : VerificationResult) :
    Option Jdict :=
  if !extraction.success then
    some [("error", jsonOfOptStr extraction.error),
          ("phase", .str "extraction"),
          ("strategy", .str "Dual-LLM Consensus")]
  else if extraction.parameters.isEmpty then
    some [("status", .str "No parameters found"),
          ("strategy", .str "Dual-LLM Consensus"),
          ("model_a", .str "Gemini 1.5 Flash"),
          ("original_count", .num 0),
          ("data", .arr [])]
  else if !verification.success then
    some [("warning", .str ("Verification phase failed: " ++ pyOptStr verification.error)),
          ("strategy", .str "Single-LLM (Gemini only - unverified)"),
          ("model_a", .str "Gemini 1.5 Flash"),
          ("original_count", .num extraction.parameters.length),
          ("data", .arr (extraction.parameters.map .obj))]
  else
    (merge_results extraction.parameters verification).map dumpConsensus

/-! ## Merger lemmas -/

/-- What one pass of the merge loop adds to its accumulators: the emitted
parameters extend `fl` at the end, every judgment lands in exactly one of the
two counters, and the confidence total grows by the emitted confidences. -/
theorem mergeLoop_spec (items : List Jdict) :
    ∀ fl rc tc fl' rc' tc', mergeLoop items fl rc tc = some (fl', rc', tc') →
    ∃ newfl : List ValidatedParam,
      fl' = fl ++ newfl ∧
      rc' + newfl.length = rc + items.length ∧
      tc' = tc + (newfl.map fun v => v.confidence).sum := by
  induction items with
  | nil =>
    intro fl rc tc fl' rc' tc' h
    simp only [mergeLoop, Option.some.injEq, Prod.mk.injEq] at h
    obtain ⟨rfl, rfl, rfl⟩ := h
    exact ⟨[], by simp, by simp, by simp⟩
  | cons item rest ih =>
    intro fl rc tc fl' rc' tc' h
    rw [mergeLoop] at h
    by_cases hv : truthy (getD item "is_valid" (.bool true))
    · rw [if_pos hv] at h
      cases hn : asNum (getD item "confidence" (.num (4/5))) with
      | none => rw [hn] at h; exact absurd h (by simp)
      | some c =>
        rw [hn] at h
        obtain ⟨newfl, h1, h2, h3⟩ := ih _ _ _ _ _ _ h
        refine ⟨mkParam item c :: newfl, ?_, ?_, ?_⟩
        · rw [h1]; simp
        · simp only [List.length_cons, List.length_append, List.length_cons] at h2 ⊢
          omega
        · rw [h3]
          simp only [List.map_cons, List.sum_cons]
          have hc : (mkParam item c).confidence = c := rfl
          rw [hc]
          ring
    · rw [if_neg hv] at h
      obtain ⟨newfl, h1, h2, h3⟩ := ih _ _ _ _ _ _ h
      refine ⟨newfl, h1, ?_, h3⟩
      simp only [List.length_cons] at h2 ⊢
      omega

/-- Claim C1: in every Consensus Result the merger produces,
`validated_count` is the length of `data`, and `confidence_avg` is the
mean of the `confidence` values of the items of `data` rounded to three
decimals when `data` is non-empty, and `0.0` when `data` is empty. -/
theorem consensus_counts_and_confidence (proposed : List Jdict)
    (verified : VerificationResult) (r : ConsensusResult)
    (h : merge_results proposed verified = some r) :
    r.validated_count = r.data.length ∧
    r.confidence_avg =
      (if r.data.isEmpty then 0
       else round3 (((r.data.map fun v => v.confidence).sum) / r.data.length)) := by
  unfold merge_results at h
  cases hm : mergeLoop verified.results [] 0 0 with
  | none => rw [hm] at h; exact absurd h (by simp)
  | some res =>
    obtain ⟨fl, rc, tc⟩ := res
    rw [hm] at h
    rw [Option.some_inj] at h
    subst h
    obtain ⟨newfl, h1, h2, h3⟩ := mergeLoop_spec _ _ _ _ _ _ _ hm
    simp only [List.nil_append] at h1
    subst h1
    refine ⟨rfl, ?_⟩
    show round3 (if fl.isEmpty then 0 else tc / fl.length) =
      if fl.isEmpty then 0
      else round3 ((fl.map fun v => v.confidence).sum / fl.length)
    by_cases he : fl.isEmpty
    · simp [he, round3]
    · rw [if_neg he, if_neg he, h3, zero_add]

/-- Witness data for C1: a single judgment with confidence 0.9 and no
`is_valid` field. -/
def sampleJudgment : Jdict := [("confidence", .num (9/10))]

/-- The verification outcome holding just `sampleJudgment`. -/
def sampleVR : VerificationResult :=
  { success := true, results := [sampleJudgment] }

/-- The Consensus Result the merger produces from `sampleVR` and an empty
candidate list (arithmetic left unevaluated so that it is definitional). -/
def sampleCR : ConsensusResult :=
  { original_count := 0
    validated_count := 1
    rejected_count := 0
    confidence_avg := round3 ((0 + 9/10) / ((1:ℕ) : ℚ))
    data := [mkParam sampleJudgment (9/10)]
    verification_summary := none }

/-- Witness for C1 at the concrete merge of `sampleVR`. -/
theorem consensus_counts_and_confidence_witness :
    sampleCR.validated_count = sampleCR.data.length ∧
    sampleCR.confidence_avg =
      (if sampleCR.data.isEmpty then 0
       else round3 (((sampleCR.data.map fun v => v.confidence).sum) / sampleCR.data.length)) :=
  consensus_counts_and_confidence [] sampleVR sampleCR rfl

/-- Claim C3: the merger's two counters partition exactly the judgment list:
`validated_count + rejected_count` always equals the number of judgments, so
it equals `original_count` precisely when there is one judgment per
candidate; candidates without a judgment contribute to neither counter. -/
theorem consensus_count_partition (proposed : List Jdict)
    (verified : VerificationResult) (r : ConsensusResult)
    (h : merge_results proposed verified = some r) :
    r.validated_count + r.rejected_count = verified.results.length ∧
    (verified.results.length = proposed.length →
      r.validated_count + r.rejected_count = r.original_count) := by
  unfold merge_results at h
  cases hm : mergeLoop verified.results [] 0 0 with
  | none => rw [hm] at h; exact absurd h (by simp)
  | some res =>
    obtain ⟨fl, rc, tc⟩ := res
    rw [hm] at h
    rw [Option.some_inj] at h
    subst h
    obtain ⟨newfl, h1, h2, h3⟩ := mergeLoop_spec _ _ _ _ _ _ _ hm
    simp only [List.nil_append] at h1
    subst h1
    constructor
    · show fl.length + rc = verified.results.length
      omega
    · intro hlen
      show fl.length + rc = proposed.length
      omega

/-- Witness data for C3: one rejecting judgment. -/
def sampleRejVR : VerificationResult :=
  { success := true, results := [[("is_valid", .bool false)]] }

/-- The Consensus Result merged from `sampleRejVR` and one candidate. -/
def sampleRejCR : ConsensusResult :=
  { original_count := 1
    validated_count := 0
    rejected_count := 0 + 1
    confidence_avg := round3 0
    data := []
    verification_summary := none }

/-- Witness for C3 at the concrete merge of `sampleRejVR` against a single
candidate. -/
theorem consensus_count_partition_witness :
    sampleRejCR.validated_count + sampleRejCR.rejected_count =
      sampleRejVR.results.length ∧
    (sampleRejVR.results.length = ([[]] : List Jdict).length →
      sampleRejCR.validated_count + sampleRejCR.rejected_count =
        sampleRejCR.original_count) :=
  consensus_count_partition [[]] sampleRejVR sampleRejCR rfl

/-- Claim C9: the merger treats an absent `is_valid` field as valid,
substitutes 0.8 for an absent `confidence`, and fills the emitted
parameter's `category` preferring `category`, then `original_category`,
then `"Unknown"`. -/
theorem merger_field_defaults (item : Jdict) (rest : List Jdict)
    (fl : List ValidatedParam) (rc : Nat) (tc c : ℚ) :
    (item.lookup "is_valid" = none →
      asNum (getD item "confidence" (.num (4/5))) = some c →
      mergeLoop (item :: rest) fl rc tc =
        mergeLoop rest (fl ++ [mkParam item c]) rc (tc + c)) ∧
    (truthy (getD item "is_valid" (.bool true)) = true →
      item.lookup "confidence" = none →
      mergeLoop (item :: rest) fl rc tc =
        mergeLoop rest (fl ++ [mkParam item (4/5)]) rc (tc + 4/5)) ∧
    (truthy (getD item "is_valid" (.bool true)) = true →
      item.lookup "confidence" = some (.num c) →
      mergeLoop (item :: rest) fl rc tc =
        mergeLoop rest (fl ++ [mkParam item c]) rc (tc + c)) ∧
    ((mkParam item c).category =
      match item.lookup "category" with
      | some v => v
      | none =>
        match item.lookup "original_category" with
        | some w => w
        | none => .str "Unknown") := by
  refine ⟨?_, ?_, ?_, ?_⟩
  · intro habs hconf
    have hv : truthy (getD item "is_valid" (.bool true)) = true := by
      rw [getD, habs]
      rfl
    rw [mergeLoop, if_pos hv, hconf]
  · intro hv habs
    have hconf : asNum (getD item "confidence" (.num (4/5))) = some (4/5) := by
      rw [getD, habs]
      rfl
    rw [mergeLoop, if_pos hv, hconf]
  · intro hv hpres
    have hconf : asNum (getD item "confidence" (.num (4/5))) = some c := by
      rw [getD, hpres]
      rfl
    rw [mergeLoop, if_pos hv, hconf]
  · show getD item "category" (getD item "original_category" (.str "Unknown")) = _
    rw [getD, getD]
    cases item.lookup "category" with
    | some v => rfl
    | none =>
      cases item.lookup "original_category" with
      | some w => rfl
      | none => rfl

/-- Witness for C9: an empty judgment dict (no `is_valid`, no `confidence`)
is merged through the valid branch with confidence 0.8. -/
theorem merger_field_defaults_witness :
    mergeLoop [([] : Jdict)] [] 0 0 =
      mergeLoop [] ([] ++ [mkParam [] (4/5)]) 0 (0 + 4/5) :=
  (merger_field_defaults [] [] [] 0 0 (4/5)).1 rfl rfl

/-- Claim C4 (code bug): `_verify_with_llama` is supposed to fall back to
using a list-shaped reply as the judgment list, but `verified_data.get`
raises `AttributeError` on a list, so a reply parsing to a JSON array fails
with the generic verification error rather than succeeding, while an object
reply with a `results` key succeeds as described. -/
theorem verify_parse_list_reply :
    (verify_parse (.ok (.arr [.obj [("is_valid", .bool true)]]))).success = false ∧
    (verify_parse (.ok (.arr [.obj [("is_valid", .bool true)]]))).results = [] ∧
    (verify_parse (.ok (.arr [.obj [("is_valid", .bool true)]]))).error =
      some "Llama verification error" ∧
    (verify_parse (.ok (.obj [("results", .arr [.obj []])]))).success = true ∧
    (verify_parse (.ok (.obj [("results", .arr [.obj []])]))).results = [[]] :=
  ⟨rfl, rfl, rfl, rfl, rfl⟩

/-- Claim C2: when extraction succeeded with a non-empty candidate list and
verification failed, `run_pipeline` returns the degraded result: a strategy
containing "unverified", `data` equal to the raw candidate list,
`original_count` the candidate count, no `validated_count` field, and the
failure reason in a `warning` field while no `error` field is present. -/
theorem pipeline_degraded_on_verifier_failure (er : ExtractionResult)
    (vr : VerificationResult) (r : Jdict)
    (h1 : er.success = true) (h2 : er.parameters ≠ [])
    (h3 : vr.success = false) (h : run_pipeline er vr = some r) :
    (∃ a b : String, r.lookup "strategy" = some (.str (a ++ "unverified" ++ b))) ∧
    r.lookup "data" = some (.arr (er.parameters.map JValue.obj)) ∧
    r.lookup "original_count" = some (.num er.parameters.length) ∧
    r.lookup "validated_count" = none ∧
    r.lookup "warning" =
      some (.str ("Verification phase failed: " ++ pyOptStr vr.error)) ∧
    r.lookup "error" = none := by
  have h2' : er.parameters.isEmpty = false := by
    simpa [List.isEmpty_iff] using h2
  rw [run_pipeline, h1, h2', h3] at h
  simp only [Bool.not_true, Bool.not_false, Bool.false_eq_true, if_false, if_true,
    Option.some_inj] at h
  subst h
  exact ⟨⟨"Single-LLM (Gemini only - ", ")", rfl⟩, rfl, rfl, rfl, rfl, rfl⟩

/-- The concrete degraded-mode result used to witness C2. -/
def sampleDegraded : Jdict :=
  [("warning", .str ("Verification phase failed: " ++ pyOptStr (some "boom"))),
   ("strategy", .str "Single-LLM (Gemini only - unverified)"),
   ("model_a", .str "Gemini 1.5 Flash"),
   ("original_count", .num ((1:ℕ) : ℚ)),
   ("data", .arr [.obj []])]

/-- Witness for C2: one candidate, a failed verification carrying reason
"boom". -/
theorem pipeline_degraded_witness :
    (∃ a b : String, sampleDegraded.lookup "strategy" =
      some (.str (a ++ "unverified" ++ b))) ∧
    sampleDegraded.lookup "data" =
      some (.arr (([[]] : List Jdict).map JValue.obj)) ∧
    sampleDegraded.lookup "original_count" =
      some (.num ([[]] : List Jdict).length) ∧
    sampleDegraded.lookup "validated_count" = none ∧
    sampleDegraded.lookup "warning" =
      some (.str ("Verification phase failed: " ++
        pyOptStr (some "boom"))) ∧
    sampleDegraded.lookup "error" = none :=
  pipeline_degraded_on_verifier_failure
    { success := true, parameters := [[]] }
    { success := false, results := [], error := some "boom" }
    sampleDegraded rfl (by simp) rfl rfl

/-- Claim C8: when the extraction reply is not valid JSON, `run_pipeline`
returns exactly the three-field dictionary — an error string mentioning a
JSON parse error, `phase = "extraction"`, `strategy = "Dual-LLM Consensus"`
— and the result does not depend on the verification outcome (neither
verification nor merging is reached). -/
theorem pipeline_halts_on_extraction_parse_error (m : String)
    (vr vr' : VerificationResult) :
    run_pipeline (extract_parse (.error m)) vr =
      some [("error", .str ("Gemini JSON parse error: " ++ m)),
            ("phase", .str "extraction"),
            ("strategy", .str "Dual-LLM Consensus")] ∧
    run_pipeline (extract_parse (.error m)) vr =
      run_pipeline (extract_parse (.error m)) vr' :=
  ⟨rfl, rfl⟩

/-- Claim C10: on all four terminal paths — extraction failure, zero
candidates, degraded verification, and successful merge — the dictionary
returned by `run_pipeline` carries a `"strategy"` key. -/
theorem pipeline_always_reports_strategy (er : ExtractionResult)
    (vr : VerificationResult) (r : Jdict) (h : run_pipeline er vr = some r) :
    ∃ v, r.lookup "strategy" = some v := by
  rw [run_pipeline] at h
  by_cases h1 : er.success
  · rw [h1] at h
    by_cases h2 : er.parameters.isEmpty
    · rw [h2] at h
      simp only [Bool.not_true, Bool.false_eq_true, if_false, if_true,
        Option.some_inj] at h
      subst h
      exact ⟨.str "Dual-LLM Consensus", rfl⟩
    · rw [Bool.not_eq_true] at h2
      rw [h2] at h
      by_cases h3 : vr.success
      · rw [h3] at h
        simp only [Bool.not_true, Bool.not_false, Bool.false_eq_true, if_false] at h
        rw [Option.map_eq_some'] at h
        obtain ⟨c, hc, rfl⟩ := h
        exact ⟨.str c.strategy, rfl⟩
      · rw [Bool.not_eq_true] at h3
        rw [h3] at h
        simp only [Bool.not_true, Bool.not_false, Bool.false_eq_true, if_false,
          if_true, Option.some_inj] at h
        subst h
        exact ⟨.str "Single-LLM (Gemini only - unverified)", rfl⟩
  · rw [Bool.not_eq_true] at h1
    rw [h1] at h
    simp only [Bool.not_false, if_true, Option.some_inj] at h
    subst h
    exact ⟨.str "Dual-LLM Consensus", rfl⟩

/-- Witness for C10 at the extraction-failure path. -/
theorem pipeline_always_reports_strategy_witness :
    ∃ v, ([("error", jsonOfOptStr (some "bad")),
          ("phase", .str "extraction"),
          ("strategy", .str "Dual-LLM Consensus")] : Jdict).lookup "strategy" =
      some v :=
  pipeline_always_reports_strategy
    { success := false, parameters := [], error := some "bad" }
    { success := false, results := [] }
    [("error", jsonOfOptStr (some "bad")),
     ("phase", .str "extraction"),
     ("strategy", .str "Dual-LLM Consensus")] rfl
